import Mathlib

set_option autoImplicit false
set_option maxRecDepth 100000

/-! Verification development for the BBTools website generator script
`generate_tool_pages.py`.  The script extracts documentation fragments from
shell scripts with regular expressions (`extract_tool_info`), renders one
static HTML page per tool from an f-string template (`generate_tool_page`),
and drives a loop over the input directory (`main`).  Below, the Python
string operations and the three specific regular expressions of the script
are embedded as executable functions on `List Char`; machine text is ASCII
throughout, so the ASCII fragment of Python's Unicode-aware `\s`, `upper`,
`lower` and `title` semantics is what the embedding implements. -/

/-! ### Basic string machinery (Python semantics on ASCII text) -/

/-- ASCII whitespace, the ASCII fragment of Python's `\s` and `str.strip`. -/
def isWS (c : Char) : Bool :=
  c == ' ' || c == '\t' || c == '\n' || c == '\r' || c == '\x0B' || c == '\x0C'

/-- Python `str.strip()`: remove leading and trailing whitespace. -/
def pyStrip (l : List Char) : List Char :=
  ((l.dropWhile isWS).reverse.dropWhile isWS).reverse

/-- `strPre pat l` holds when `pat` is an initial segment of `l`. -/
def strPre : List Char → List Char → Bool
  | [], _ => true
  | _ :: _, [] => false
  | p :: ps, c :: cs => if p = c then strPre ps cs else false

/-- `occursB pat l`: `pat` occurs as a contiguous substring of `l`. -/
def occursB (pat : List Char) : List Char → Bool
  | [] => strPre pat []
  | c :: t => strPre pat (c :: t) || occursB pat t

/-- Index of the leftmost occurrence of `pat` in `l`, as `re.search` scans. -/
def occIdx (pat : List Char) : List Char → Option Nat
  | [] => if strPre pat [] then some 0 else none
  | c :: t =>
    if strPre pat (c :: t) then some 0
    else (occIdx pat t).map (fun n => n + 1)

/-- Least index at which the terminator predicate `term` (a lookahead)
matches, scanning the suffixes of `l` left to right; this is where a lazy
`(.*?)` group stops growing. -/
def findTerm (term : List Char → Bool) : List Char → Option Nat
  | [] => if term [] then some 0 else none
  | c :: t =>
    if term (c :: t) then some 0
    else (findTerm term t).map (fun n => n + 1)

/-- Length of the maximal whitespace run at the front of `l`, the greedy
extent of `\s*`. -/
def wsRun (l : List Char) : Nat := (l.takeWhile isWS).length

/-- Backtracking of a greedy `\s*` followed by a lazy `(.*?)(?=term)` over
`rest` (the text after the literal label): `\s*` first takes `k` whitespace
characters (started at the maximal run), the lazy group then ends at the
first position where the lookahead matches; on failure `\s*` gives back one
character at a time.  Returns the text captured by the lazy group. -/
def backtrackWS (term : List Char → Bool) (rest : List Char) : Nat → Option (List Char)
  | 0 =>
    match findTerm term rest with
    | some m => some (rest.take m)
    | none => none
  | k + 1 =>
    match findTerm term (rest.drop (k + 1)) with
    | some m => some ((rest.drop (k + 1)).take m)
    | none => backtrackWS term rest k

/-- `re.search(label + r'\s*(.*?)(?=term)', content, re.DOTALL)`, returning
`group(1)`.  The leftmost viable start is the first occurrence of the literal
`label`: if no lookahead position at or after the end of that first label
matches, none matches after any later occurrence either, so the search
fails. -/
def reSearchLazy (label : List Char) (term : List Char → Bool) (content : List Char) :
    Option (List Char) :=
  match occIdx label content with
  | none => none
  | some s =>
    backtrackWS term (content.drop (s + label.length)) (wsRun (content.drop (s + label.length)))

/-! ### The extractor (`extract_tool_info`, lines 16-41) -/

/-- Literal label of the description pattern. -/
def descLabel : List Char := "Description:".toList

/-- Literal label of the usage pattern. -/
def usageLabel : List Char := "Usage:".toList

/-- Lookahead `(?=\n\nUsage:|Parameters:|Usage:)` of the description regex. -/
def descTerm (t : List Char) : Bool :=
  strPre ("\n\nUsage:".toList) t || strPre ("Parameters:".toList) t ||
    strPre (usageLabel) t

/-- Lookahead `(?=\n\n|\nParameters:|\nInput)` of the usage regex. -/
def usageTerm (t : List Char) : Bool :=
  strPre ("\n\n".toList) t || strPre ("\nParameters:".toList) t ||
    strPre ("\nInput".toList) t

/-- `description.replace('\n', ' ')`: each newline becomes one space. -/
def newlineToSpace (l : List Char) : List Char :=
  l.map (fun c => if c = '\n' then ' ' else c)

/-- Lines 26-28: description extraction, `strip` then `replace('\n', ' ')`;
the empty string when the regex does not match. -/
def extractDescription (content : List Char) : List Char :=
  match reSearchLazy descLabel descTerm content with
  | some g => newlineToSpace (pyStrip g)
  | none => []

/-- Lines 31-32: usage extraction, `strip` only; empty on no match. -/
def extractUsage (content : List Char) : List Char :=
  match reSearchLazy usageLabel usageTerm content with
  | some g => pyStrip g
  | none => []

/-- For `re.search(label + r'(.*)', content)` without DOTALL: the rest of the
line after the leftmost occurrence of the literal `label`. -/
def afterLabelLine (label content : List Char) : Option (List Char) :=
  match occIdx label content with
  | none => none
  | some s => some ((content.drop (s + label.length)).takeWhile (fun c => !(c == '\n')))

/-- Label of the author pattern, line 35. -/
def litWrittenBy : List Char := "Written by ".toList

/-- The fixed default author, line 36. -/
def litBrianBushnell : List Char := "Brian Bushnell".toList

/-- Label of the last-modified pattern, line 38. -/
def litLastModifiedLbl : List Char := "Last modified ".toList

/-- Lines 35-36: the author value `extract_tool_info` computes.  The source
assigns it to the local `author` and then never uses it: line 41 returns only
`(description, usage, last_modified)`. -/
def extractAuthor (content : List Char) : List Char :=
  match afterLabelLine litWrittenBy content with
  | some s => s
  | none => litBrianBushnell

/-- Lines 38-39: last-modified extraction, empty string when absent. -/
def extractLastModified (content : List Char) : List Char :=
  match afterLabelLine litLastModifiedLbl content with
  | some s => s
  | none => []

/-- Outcome of `open(...).read()` at lines 19-23: either the file content or
any raised exception (missing file, permission, decode error), which the bare
`except:` turns into the `return None, None, None` path. -/
inductive ReadResult where
  | ok (content : List Char)
  | err
  deriving DecidableEq

/-- `extract_tool_info` (lines 16-41): `none` models the `(None, None, None)`
triple of the unreadable-file path, `some` the extracted
`(description, usage, last_modified)`.  The `author` computed at lines 35-36
is not part of the returned value (see `extractAuthor`). -/
def extract_tool_info : ReadResult → Option (List Char × List Char × List Char)
  | ReadResult.err => none
  | ReadResult.ok content =>
    some (extractDescription content, extractUsage content, extractLastModified content)

/-! ### Display name (lines 47-50) -/

/-- Python `str.upper()` on ASCII letters. -/
def pyUpper (l : List Char) : List Char := l.map Char.toUpper

/-- `.replace('_', ' ')`. -/
def underscoreToSpace (l : List Char) : List Char :=
  l.map (fun c => if c = '_' then ' ' else c)

/-- Helper for Python `str.title()`: the Boolean records whether the previous
character was cased (an ASCII letter). -/
def pyTitleAux : Bool → List Char → List Char
  | _, [] => []
  | prev, c :: t =>
    (if c.isAlpha then (if prev then c.toLower else c.toUpper) else c) ::
      pyTitleAux c.isAlpha t

/-- Python `str.title()` on ASCII text. -/
def pyTitle (l : List Char) : List Char := pyTitleAux false l

/-- The literal trailing text used by the BB check, line 49. -/
def litBB : List Char := "BB".toList

/-- Lines 47-50: uppercase, underscores to spaces; when the result starts
with `BB`, keep `BB` and title-case the rest (which is already uppercase, so
title-casing lowercases all but word-initial letters). -/
def displayName (tool_name : List Char) : List Char :=
  if strPre litBB (underscoreToSpace (pyUpper tool_name)) then
    litBB ++ pyTitle ((underscoreToSpace (pyUpper tool_name)).drop 2)
  else underscoreToSpace (pyUpper tool_name)

/-! ### Version sidecar (lines 52-62) -/

/-- State of `data/version.json` as the `try` block at lines 55-62 can see
it: absent (`os.path.exists` false), unreadable-or-unparseable (any exception
caught by the `except: pass`, including a non-object JSON value on which
`.get` fails), or parsed to a JSON object with string fields. -/
inductive SidecarState where
  | missing
  | malformed
  | parsed (fields : List (List Char × List Char))
  deriving DecidableEq

/-- The default version literal, line 53. -/
def litDefaultVersion : List Char := "39.34".toList

/-- The field name given to `data.get`, line 60. -/
def litVersionKey : List Char := "version".toList

/-- First-match association lookup, the value of `data[k]` for a parsed JSON
object. -/
def lookupField (k : List Char) : List (List Char × List Char) → Option (List Char)
  | [] => none
  | (k2, v) :: t => if k2 = k then some v else lookupField k t

/-- Lines 52-62: the version string actually interpolated into the page:
`data.get('version', version)` under `try`, with the default on every
failure path. -/
def resolveVersion : SidecarState → List Char
  | SidecarState.missing => litDefaultVersion
  | SidecarState.malformed => litDefaultVersion
  | SidecarState.parsed fields =>
    match lookupField litVersionKey fields with
    | some v => v
    | none => litDefaultVersion

/-- The failure cases of the sidecar read: missing file, parse or read error,
or a JSON object without a `version` field. -/
def badSidecar : SidecarState → Prop
  | SidecarState.missing => True
  | SidecarState.malformed => True
  | SidecarState.parsed fields => lookupField litVersionKey fields = none

/-! ### The HTML template (lines 64-166).  The f-string is split at its
interpolation points; every chunk below is the literal template text, with
`{{`/`}}` unescaped to plain braces as Python renders them. -/

/-- Template text before `{display_name}` in the title element. -/
def tplHead : List Char :=
  "<!DOCTYPE html>\n<html lang=\"en\">\n<head>\n    <meta charset=\"UTF-8\">\n    <meta name=\"viewport\" content=\"width=device-width, initial-scale=1.0\">\n    ".toList

/-- The opening title tag. -/
def litTitleOpen : List Char := "<title>".toList

/-- The text closing the title element after the display name. -/
def litTitleClose : List Char := " - BBTools</title>".toList

/-- Template text between the title element and the meta description value. -/
def tplMetaOpen : List Char :=
  "\n    <meta name=\"description\" content=\"".toList

/-- Template text from the end of the meta description through the CSS and
navigation up to `{tool_name}` inside the source link. -/
def tplStyleNav : List Char :=
  "\">\n    <link rel=\"stylesheet\" href=\"../styles.css\">\n    <style>\n        .tool-header \x7b\n            background: linear-gradient(135deg, #667eea 0%, #764ba2 100%);\n            color: white;\n            padding: 3rem 0;\n            margin-bottom: 2rem;\n        \x7d\n        .tool-nav \x7b\n            background: #f8f9fa;\n            padding: 1rem 0;\n            margin-bottom: 2rem;\n        \x7d\n        .tool-nav a \x7b\n            margin: 0 1rem;\n            color: #667eea;\n            text-decoration: none;\n        \x7d\n        .tool-nav a:hover \x7b\n            text-decoration: underline;\n        \x7d\n        .usage-box \x7b\n            background: #f4f4f4;\n            border-left: 4px solid #667eea;\n            padding: 1rem;\n            margin: 1rem 0;\n            font-family: monospace;\n            overflow-x: auto;\n        \x7d\n        .info-box \x7b\n            background: #e8f4fd;\n            border: 1px solid #bee5f0;\n            padding: 1rem;\n            margin: 1rem 0;\n            border-radius: 4px;\n        \x7d\n    </style>\n</head>\n<body>\n    <nav class=\"tool-nav\">\n        <div class=\"container\">\n            <a href=\"../index.html\">← BBTools Home</a>\n            <a href=\"../index.html#tools\">All Tools</a>\n            <a href=\"https://github.com/bbushnell/BBTools/blob/master/".toList

/-- Template text from `.sh` of the source link up to `{display_name}`
inside the h1 element. -/
def tplViewSource : List Char :=
  ".sh\" target=\"_blank\">View Source</a>\n        </div>\n    </nav>\n    \n    <header class=\"tool-header\">\n        <div class=\"container\">\n            <h1>".toList

/-- Template text between the h1 element and the header paragraph. -/
def tplHeaderP : List Char := "</h1>\n            <p>".toList

/-- Template text from the header paragraph through the usage section up to
the usage-box content. -/
def tplUsageOpen : List Char :=
  "</p>\n        </div>\n    </header>\n    \n    <main class=\"container\">\n        <section id=\"usage\">\n            <h2>Usage</h2>\n            <div class=\"usage-box\">\n                ".toList

/-- Template text from the usage box through the about section up to the
description paragraph. -/
def tplAboutOpen : List Char :=
  "\n            </div>\n        </section>\n        \n        <section id=\"description\">\n            <h2>About This Tool</h2>\n            <p>".toList

/-- Template text from the about paragraph to the last-updated value. -/
def tplInfoOpen : List Char :=
  "</p>\n            <div class=\"info-box\">\n                <strong>Last Updated:</strong> ".toList

/-- Line break and indentation after the last-updated value. -/
def tplBr1 : List Char := "<br>\n                ".toList

/-- The author line of the info box: a fixed literal of the template
(line 138), independent of the extracted author. -/
def litAuthorLine : List Char := "<strong>Author:</strong> Brian Bushnell".toList

/-- Line break and indentation after the author line. -/
def tplBr2 : List Char := "<br>\n                ".toList

/-- The version label up to `{version}`, line 139. -/
def litVersionTag : List Char := "<strong>Version:</strong> BBTools v".toList

/-- Template text from the version value through the examples section up to
`{tool_name}` inside the examples usage box. -/
def tplExamples : List Char :=
  "\n            </div>\n        </section>\n        \n        <section id=\"examples\">\n            <h2>Examples</h2>\n            <p>For detailed parameters and examples, run:</p>\n            <div class=\"usage-box\">".toList

/-- Template text after the examples usage box to the end of the document. -/
def tplTail : List Char :=
  ".sh</div>\n            <p>This will display the help message with all available options.</p>\n        </section>\n        \n        <section id=\"links\">\n            <h2>Additional Resources</h2>\n            <ul>\n                <li><a href=\"https://github.com/bbushnell/BBTools/tree/master/docs\">Documentation</a></li>\n                <li><a href=\"https://sourceforge.net/projects/bbmap/\">Download BBTools</a></li>\n                <li><a href=\"../index.html#citation\">How to Cite</a></li>\n            </ul>\n        </section>\n    </main>\n    \n    <footer>\n        <div class=\"container\">\n            <p>BBTools by Brian Bushnell | <a href=\"https://bbmap.org\">bbmap.org</a></p>\n        </div>\n    </footer>\n</body>\n</html>".toList

/-- Fallback tail of the meta description when the description is empty. -/
def litMetaFallback : List Char := " - BBTools bioinformatics tool".toList

/-- Fallback of the header paragraph. -/
def litHeaderFallback : List Char := "A tool in the BBTools suite".toList

/-- Fallback tail of the usage box: `f'{tool_name}.sh [parameters]'`. -/
def litShParams : List Char := ".sh [parameters]".toList

/-- Fallback tail of the about paragraph. -/
def litAboutFallback : List Char :=
  " is part of the BBTools suite of bioinformatics tools.".toList

/-- Fallback of the last-updated value. -/
def litSeeSource : List Char := "See source".toList

/-- Line 70: `description[:155] if description else display_name + ' - BBTools bioinformatics tool'`. -/
def metaDescription (display_name description : List Char) : List Char :=
  if description.isEmpty then display_name ++ litMetaFallback
  else description.take 155

/-- Line 121: `description if description else 'A tool in the BBTools suite'`. -/
def headerDesc (description : List Char) : List Char :=
  if description.isEmpty then litHeaderFallback else description

/-- Line 129: `usage if usage else f'{tool_name}.sh [parameters]'`. -/
def usageBox (tool_name usage : List Char) : List Char :=
  if usage.isEmpty then tool_name ++ litShParams else usage

/-- Line 135: the about paragraph with its fallback. -/
def aboutDesc (display_name description : List Char) : List Char :=
  if description.isEmpty then display_name ++ litAboutFallback else description

/-- Line 137: `last_modified if last_modified else 'See source'`. -/
def lastUpdated (last_modified : List Char) : List Char :=
  if last_modified.isEmpty then litSeeSource else last_modified

/-- The rendered f-string template (lines 64-166) as a function of the four
interpolated inputs and the resolved version string. -/
def htmlPage (tool_name description usage last_modified version : List Char) : List Char :=
  tplHead ++ (litTitleOpen ++ (displayName tool_name ++ (litTitleClose ++
    (tplMetaOpen ++ (metaDescription (displayName tool_name) description ++
    (tplStyleNav ++ (tool_name ++ (tplViewSource ++ (displayName tool_name ++
    (tplHeaderP ++ (headerDesc description ++ (tplUsageOpen ++
    (usageBox tool_name usage ++ (tplAboutOpen ++
    (aboutDesc (displayName tool_name) description ++ (tplInfoOpen ++
    (lastUpdated last_modified ++ (tplBr1 ++ (litAuthorLine ++ (tplBr2 ++
    (litVersionTag ++ (version ++ (tplExamples ++ (tool_name ++
    tplTail))))))))))))))))))))))))

/-- `generate_tool_page` (lines 44-168): besides its four parameters it
reads the version sidecar (lines 52-62), so the filesystem state of the
sidecar is an explicit argument of the embedding. -/
def generate_tool_page (fs : SidecarState) (tool_name description usage last_modified : List Char) :
    List Char :=
  htmlPage tool_name description usage last_modified (resolveVersion fs)

/-! ### The driver (`main`, lines 171-214) -/

/-- The exclusion list of line 191. -/
def excludedTools : List (List Char) :=
  ["calcmem".toList, "javasetup".toList, "memdetect".toList, "Xcalcmem".toList]

/-- `tool_name in ['calcmem', 'javasetup', 'memdetect', 'Xcalcmem']`. -/
def excludedB (tool_name : List Char) : Bool := excludedTools.contains tool_name

/-- Extension of the output file name, line 199. -/
def litHtmlExt : List Char := ".html".toList

/-- The loop body of `main` for one shell script (lines 187-208), before the
write: the produced output file (name and content), if any, and the
increments of the generated and skipped counters.  An excluded tool is
skipped before extraction; otherwise a page is produced exactly when
`description or usage` is truthy. -/
def stepFile (fs : SidecarState) (tool_name : List Char) (r : ReadResult) :
    Option (List Char × List Char) × Nat × Nat :=
  if excludedB tool_name then (none, 0, 1)
  else
    match extract_tool_info r with
    | none => (none, 0, 1)
    | some (d, u, lm) =>
      if d.isEmpty && u.isEmpty then (none, 0, 1)
      else (some (tool_name ++ litHtmlExt, generate_tool_page fs tool_name d u lm), 1, 0)

/-- Final state of a completed run: the written pages and the two counters
printed in the summary (lines 210-212). -/
structure RunResult where
  outputs : List (List Char × List Char)
  generated : Nat
  skipped : Nat
  deriving DecidableEq

/-- The loop of `main` (lines 187-208).  `wf name = true` models the write
`open(output_file, 'w')` at line 201 raising for that output file; `main`
has no handler around it, so the exception aborts the run
(`Except.error`). -/
def runLoop (wf : List Char → Bool) (fs : SidecarState) :
    List (List Char × ReadResult) → Nat → Nat → List (List Char × List Char) →
    Except (List Char) RunResult
  | [], g, s, outs => Except.ok { outputs := outs, generated := g, skipped := s }
  | (tn, r) :: files, g, s, outs =>
    match stepFile fs tn r with
    | (some (name, html), gi, si) =>
      if wf name then Except.error name
      else runLoop wf fs files (g + gi) (s + si) (outs ++ [(name, html)])
    | (none, gi, si) => runLoop wf fs files (g + gi) (s + si) outs

/-- `main` (lines 171-214) over a given listing of the input directory: each
entry is a tool name (the base name of a `*.sh` file) with the outcome of
reading it.  `Except.ok` is the path that prints the summary and exits 0. -/
def runMain (wf : List Char → Bool) (fs : SidecarState)
    (files : List (List Char × ReadResult)) : Except (List Char) RunResult :=
  runLoop wf fs files 0 0 []

/-! ### Concrete inputs used by the claims -/

/-- Tool name of the end-to-end scenario. -/
def nameBbduk : List Char := "bbduk".toList

/-- Tool name of the display-name example. -/
def nameReformat : List Char := "reformat".toList

/-- A non-excluded tool name for driver tests. -/
def nameFoo : List Char := "foo".toList

/-- The input file content of the end-to-end scenario of claim C1. -/
def c1Content : List Char :=
  "Description:\nCompresses reads.\n\nUsage:\nbbduk.sh in=reads.fq".toList

/-- The page the pipeline renders for the C1 scenario. -/
def c1Page : List Char :=
  generate_tool_page SidecarState.missing nameBbduk (extractDescription c1Content)
    (extractUsage c1Content) (extractLastModified c1Content)

/-- The description text of the C1 scenario. -/
def litCompresses : List Char := "Compresses reads.".toList

/-- The usage text claim C1 expects in the usage box. -/
def litC1Usage : List Char := "bbduk.sh in=reads.fq".toList

/-- The fallback the usage box actually receives in the C1 scenario. -/
def litBbdukFallback : List Char := "bbduk.sh [parameters]".toList

/-- Display name the code produces for `bbduk`. -/
def litBBDuk : List Char := "BBDuk".toList

/-- Display name the code produces for `reformat`. -/
def litREFORMAT : List Char := "REFORMAT".toList

/-- Display name claim C2 expects for `reformat`. -/
def litReformatTitle : List Char := "Reformat".toList

/-- Input with a description containing a run of two internal newlines,
terminated by a `Usage:` label. -/
def cDesc2NL : List Char := "Description:\na\n\nb\nUsage: u\n\n".toList

/-- The raw `group(1)` text of the description regex on `cDesc2NL`. -/
def gC3 : List Char := "a\n\nb\n".toList

/-- What the code returns on `cDesc2NL`: one space per newline. -/
def litATwoSpacesB : List Char := "a  b".toList

/-- What claim C3 predicts on `cDesc2NL`: runs collapsed to one space. -/
def litAOneSpaceB : List Char := "a b".toList

/-- Input carrying a `Written by` line with a non-default author. -/
def cAuthor : List Char :=
  "Description: d\nParameters:\nWritten by Alice Smith\n".toList

/-- The author text of `cAuthor`. -/
def litAliceSmith : List Char := "Alice Smith".toList

/-- Witness substring for the author counterexample. -/
def litAlice : List Char := "Alice".toList

/-- The page the pipeline renders for `cAuthor` under tool name `foo`. -/
def c4Page : List Char :=
  generate_tool_page SidecarState.missing nameFoo (extractDescription cAuthor)
    (extractUsage cAuthor) (extractLastModified cAuthor)

/-- A sidecar version value distinct from the default. -/
def litVersion40 : List Char := "40.00".toList

/-- A description label with no terminator anywhere after it. -/
def cNoTermD : List Char := "Description: abc".toList

/-- A usage label whose text reaches end of file with no terminator. -/
def cNoTermU : List Char := "Usage: run it now".toList

/-! ### Helper lemmas -/

theorem strPre_self_append (a b : List Char) : strPre a (a ++ b) = true := by
  induction a with
  | nil => rfl
  | cons x a ih => simp [strPre, ih]

theorem strPre_append_both (a b c : List Char) :
    strPre (a ++ b) (a ++ c) = strPre b c := by
  induction a with
  | nil => rfl
  | cons x a ih => simp [strPre, ih]

theorem occursB_of_strPre {pat l : List Char} (h : strPre pat l = true) :
    occursB pat l = true := by
  cases l with
  | nil => simpa [occursB] using h
  | cons c t => simp [occursB, h]

theorem occursB_append_left {pat l A : List Char} (h : occursB pat l = true) :
    occursB pat (A ++ l) = true := by
  induction A with
  | nil => simpa using h
  | cons x A ih => simp [occursB, ih]

theorem findTerm_none_drop {term : List Char → Bool} :
    ∀ (l : List Char), findTerm term l = none → ∀ k, findTerm term (l.drop k) = none := by
  intro l
  induction l with
  | nil =>
    intro h k
    rw [List.drop_nil]
    exact h
  | cons c t ih =>
    intro h k
    have hc : term (c :: t) = false := by
      cases hx : term (c :: t)
      · rfl
      · rw [findTerm, if_pos hx] at h
        exact absurd h (by simp)
    have ht : findTerm term t = none := by
      rw [findTerm, if_neg (by simp [hc])] at h
      cases hx : findTerm term t
      · rfl
      · rw [hx] at h
        exact absurd h (by simp)
    cases k with
    | zero => simpa using h
    | succ k => simpa using ih ht k

theorem backtrackWS_none {term : List Char → Bool} {rest : List Char}
    (h : findTerm term rest = none) : ∀ k, backtrackWS term rest k = none := by
  intro k
  induction k with
  | zero => simp [backtrackWS, h]
  | succ k ih =>
    have h2 : findTerm term (rest.drop (k + 1)) = none := findTerm_none_drop rest h (k + 1)
    simp [backtrackWS, h2, ih]

theorem newline_not_mem (l : List Char) : ¬ ('\n' ∈ newlineToSpace l) := by
  intro hmem
  simp only [newlineToSpace, List.mem_map] at hmem
  obtain ⟨a, _, ha⟩ := hmem
  by_cases hc : a = '\n'
  · rw [if_pos hc] at ha
    exact absurd ha (by decide)
  · rw [if_neg hc] at ha
    exact hc ha

theorem occursB_title (tn d u lm v : List Char) :
    occursB (litTitleOpen ++ (displayName tn ++ litTitleClose)) (htmlPage tn d u lm v) = true := by
  simp only [htmlPage]
  apply occursB_append_left
  apply occursB_of_strPre
  rw [strPre_append_both, strPre_append_both]
  exact strPre_self_append _ _

theorem occursB_version (tn d u lm v : List Char) :
    occursB (litVersionTag ++ v) (htmlPage tn d u lm v) = true := by
  simp only [htmlPage]
  iterate 21 apply occursB_append_left
  apply occursB_of_strPre
  rw [strPre_append_both]
  exact strPre_self_append _ _

theorem occursB_author (tn d u lm v : List Char) :
    occursB litAuthorLine (htmlPage tn d u lm v) = true := by
  simp only [htmlPage]
  iterate 19 apply occursB_append_left
  apply occursB_of_strPre
  exact strPre_self_append _ _

theorem stepFile_counts (fs : SidecarState) (tn : List Char) (r : ReadResult) :
    (stepFile fs tn r).2.1 + (stepFile fs tn r).2.2 = 1 := by
  cases r with
  | err =>
    by_cases h : excludedB tn = true
    · simp [stepFile, h]
    · simp [stepFile, extract_tool_info, h]
  | ok content =>
    by_cases h : excludedB tn = true
    · simp [stepFile, h]
    · by_cases h2 : ((extractDescription content).isEmpty && (extractUsage content).isEmpty) = true
      · simp [stepFile, extract_tool_info, h, h2]
      · simp [stepFile, extract_tool_info, h, h2]

theorem runLoop_ok (fs : SidecarState) (files : List (List Char × ReadResult)) :
    ∀ (g s : Nat) (outs : List (List Char × List Char)),
      ∃ r : RunResult,
        runLoop (fun _ => false) fs files g s outs = Except.ok r ∧
        r.generated + r.skipped = g + s + files.length := by
  induction files with
  | nil =>
    intro g s outs
    exact ⟨⟨outs, g, s⟩, rfl, by simp⟩
  | cons fr files ih =>
    intro g s outs
    obtain ⟨tn, r⟩ := fr
    have hc := stepFile_counts fs tn r
    rcases hstep : stepFile fs tn r with ⟨o, gi, si⟩
    rw [hstep] at hc
    simp only at hc
    cases o with
    | some out =>
      obtain ⟨name, html⟩ := out
      obtain ⟨res, h1, h2⟩ := ih (g + gi) (s + si) (outs ++ [(name, html)])
      refine ⟨res, ?_, ?_⟩
      · simpa [runLoop, hstep] using h1
      · rw [h2]
        simp [List.length_cons]
        omega
    | none =>
      obtain ⟨res, h1, h2⟩ := ih (g + gi) (s + si) outs
      refine ⟨res, ?_, ?_⟩
      · simpa [runLoop, hstep] using h1
      · rw [h2]
        simp [List.length_cons]
        omega

/-! ### The claims -/

/-- Claim C1, counterexample: on the stated input for tool `bbduk` the
pipeline does write `bbduk.html`, but the usage box does not contain
`bbduk.sh in=reads.fq`: the usage regex requires a terminator
(`\n\n`, `\nParameters:` or `\nInput`) after the usage text, and the input
ends at end of file, so the extracted usage is empty and the usage box gets
the fallback. -/
theorem endtoend_counterexample :
    (stepFile SidecarState.missing nameBbduk (ReadResult.ok c1Content)).1 =
      some (nameBbduk ++ litHtmlExt, c1Page) ∧
    occursB litC1Usage c1Page = false := by
  refine ⟨rfl, by decide⟩

/-- Claim C1, amended: the pipeline writes `bbduk.html` whose body contains
`Compresses reads.`, but the extracted usage is empty (no terminator before
end of file), so the usage box contains the fallback
`bbduk.sh [parameters]` rather than `bbduk.sh in=reads.fq`. -/
theorem endtoend_amended :
    (stepFile SidecarState.missing nameBbduk (ReadResult.ok c1Content)).1 =
      some (nameBbduk ++ litHtmlExt, c1Page) ∧
    extractDescription c1Content = litCompresses ∧
    extractUsage c1Content = [] ∧
    occursB litCompresses c1Page = true ∧
    occursB litBbdukFallback c1Page = true := by
  refine ⟨rfl, by decide, by decide, by decide, by decide⟩

/-- Claim C2, counterexample: the display name of `reformat` is `REFORMAT`,
not `Reformat`: only names beginning with `BB` get their remainder
title-cased; all others stay fully uppercased. -/
theorem display_name_counterexample :
    displayName nameReformat = litREFORMAT ∧ ¬ (litREFORMAT = litReformatTitle) := by
  decide

/-- Claim C2, amended: for every tool name the rendered output contains
`<title>{DisplayName} - BBTools</title>` with DisplayName computed by the
stated rule; `bbduk` yields `BBDuk`, but `reformat` yields `REFORMAT`
(uppercased, not title-cased). -/
theorem title_always (tn d u lm v : List Char) :
    occursB (litTitleOpen ++ (displayName tn ++ litTitleClose)) (htmlPage tn d u lm v) = true ∧
    displayName nameBbduk = litBBDuk ∧ displayName nameReformat = litREFORMAT :=
  ⟨occursB_title tn d u lm v, by decide, by decide⟩

/-- Claim C3, counterexample: for the well-formed block
`Description:\na\n\nb\nUsage: u\n\n`, the description text `a\n\nb` is
returned as `a  b` (two spaces, one per newline), not `a b` (the run of two
newlines collapsed to a single space). -/
theorem collapse_counterexample :
    extractDescription cDesc2NL = litATwoSpacesB ∧
    ¬ (extractDescription cDesc2NL = litAOneSpaceB) := by
  refine ⟨by decide, by decide⟩

/-- Claim C3, amended: whenever the description regex matches with raw group
`g`, the extractor returns `g` stripped of surrounding whitespace and with
each newline replaced by one space (so a run of `n` internal newlines
becomes `n` spaces, not one); the result never contains a newline. -/
theorem description_replacement (content g : List Char)
    (h : reSearchLazy descLabel descTerm content = some g) :
    extractDescription content = newlineToSpace (pyStrip g) ∧
    ¬ ('\n' ∈ extractDescription content) := by
  have he : extractDescription content = newlineToSpace (pyStrip g) := by
    simp [extractDescription, h]
  refine ⟨he, ?_⟩
  rw [he]
  exact newline_not_mem (pyStrip g)

/-- Claim C3, witness: the amended statement at the concrete input
`cDesc2NL`, whose raw matched group is `a\n\nb\n`. -/
theorem description_replacement_witness :
    extractDescription cDesc2NL = newlineToSpace (pyStrip gC3) ∧
    ¬ ('\n' ∈ extractDescription cDesc2NL) :=
  description_replacement cDesc2NL gC3 (by decide)

/-- Claim C4, counterexample: for an input containing
`Written by Alice Smith`, the extractor computes `Alice Smith` but the
rendered page's Author line is still the fixed literal: the page contains
`<strong>Author:</strong> Brian Bushnell` and never mentions `Alice`. -/
theorem author_counterexample :
    extractAuthor cAuthor = litAliceSmith ∧
    (stepFile SidecarState.missing nameFoo (ReadResult.ok cAuthor)).1 =
      some (nameFoo ++ litHtmlExt, c4Page) ∧
    occursB litAlice c4Page = false ∧
    occursB litAuthorLine c4Page = true := by
  refine ⟨by decide, rfl, by decide, by decide⟩

/-- Claim C4, amended: `extract_tool_info` computes an author value (the
text after `Written by `, defaulting to the fixed literal when the phrase is
absent) but does not return it, and the rendered page's Author line is the
fixed literal `Brian Bushnell` for every input. -/
theorem author_always_literal (fs : SidecarState) (tn d u lm content : List Char) :
    occursB litAuthorLine (generate_tool_page fs tn d u lm) = true ∧
    (occIdx litWrittenBy content = none → extractAuthor content = litBrianBushnell) := by
  constructor
  · simp only [generate_tool_page]
    exact occursB_author tn d u lm (resolveVersion fs)
  · intro h
    simp [extractAuthor, afterLabelLine, h]

/-- Claim C4, witness: the amended statement at concrete inputs. -/
theorem author_always_literal_witness :
    occursB litAuthorLine (generate_tool_page SidecarState.missing nameBbduk [] [] []) = true ∧
    extractAuthor [] = litBrianBushnell := by
  obtain ⟨h1, h2⟩ := author_always_literal SidecarState.missing nameBbduk [] [] [] []
  exact ⟨h1, h2 rfl⟩

/-- Claim C5, counterexample: two invocations of the renderer with identical
arguments but different version-sidecar states produce different output, so
the renderer is not a pure function of its four arguments. -/
theorem renderer_not_pure :
    ¬ (generate_tool_page SidecarState.missing nameBbduk [] [] [] =
      generate_tool_page (SidecarState.parsed [(litVersionKey, litVersion40)]) nameBbduk [] [] []) := by
  intro h
  have h1 : occursB (litVersionTag ++ litDefaultVersion)
      (generate_tool_page SidecarState.missing nameBbduk [] [] []) = true :=
    occursB_version nameBbduk [] [] [] litDefaultVersion
  have h2 : occursB (litVersionTag ++ litDefaultVersion)
      (generate_tool_page (SidecarState.parsed [(litVersionKey, litVersion40)])
        nameBbduk [] [] []) = false := by decide
  rw [h] at h1
  exact Bool.noConfusion (h1.symm.trans h2)

/-- Claim C5, amended: the renderer reads the version sidecar (I/O inside
`generate_tool_page`), so its output is determined by its four arguments
together with the resolved version of the sidecar state: two invocations
with identical arguments and equally-resolving sidecar states yield
byte-identical output. -/
theorem renderer_deterministic (fs1 fs2 : SidecarState) (tn d u lm : List Char)
    (h : resolveVersion fs1 = resolveVersion fs2) :
    generate_tool_page fs1 tn d u lm = generate_tool_page fs2 tn d u lm := by
  simp only [generate_tool_page, h]

/-- Claim C5, witness: the amended statement at concrete inputs. -/
theorem renderer_deterministic_witness :
    resolveVersion SidecarState.missing = resolveVersion SidecarState.malformed ∧
    generate_tool_page SidecarState.missing nameBbduk [] [] [] =
      generate_tool_page SidecarState.malformed nameBbduk [] [] [] :=
  ⟨rfl, renderer_deterministic SidecarState.missing SidecarState.malformed nameBbduk [] [] [] rfl⟩

/-- Claim C6, counterexample: a failing write of an output page (a
filesystem condition) aborts the run: `main` has no handler around the
write at lines 201-202, so the exception propagates and the process does not
exit 0. -/
theorem fatal_write_error :
    runMain (fun _ => true) SidecarState.missing [(nameFoo, ReadResult.ok cAuthor)] =
      Except.error (nameFoo ++ litHtmlExt) := by
  rfl

/-- Claim C6, amended: read errors and version-sidecar errors are never
fatal, and when every page write succeeds the run completes the full pass
and reaches the summary with `generated + skipped` equal to the number of
input files; but a failed output write is fatal (see the
counterexample). -/
theorem run_always_completes (fs : SidecarState) (files : List (List Char × ReadResult)) :
    ∃ r : RunResult,
      runMain (fun _ => false) fs files = Except.ok r ∧
      r.generated + r.skipped = files.length := by
  obtain ⟨r, h1, h2⟩ := runLoop_ok fs files 0 0 []
  exact ⟨r, h1, by simpa using h2⟩

/-- Claim C7: for a processed (non-excluded, readable) file, an output page
is produced exactly when the extracted description or usage is non-empty;
when both are empty the loop body produces no output and increments the
skip counter exactly once. -/
theorem output_iff_info (fs : SidecarState) (tn content : List Char)
    (h : excludedB tn = false) :
    ((stepFile fs tn (ReadResult.ok content)).1.isSome = true ↔
      (extractDescription content ≠ [] ∨ extractUsage content ≠ [])) ∧
    (extractDescription content = [] → extractUsage content = [] →
      stepFile fs tn (ReadResult.ok content) = (none, 0, 1)) := by
  constructor
  · cases hd : extractDescription content with
    | nil =>
      cases hu : extractUsage content with
      | nil => simp [stepFile, extract_tool_info, h, hd, hu]
      | cons a as => simp [stepFile, extract_tool_info, h, hd, hu]
    | cons a as => simp [stepFile, extract_tool_info, h, hd]
  · intro h1 h2
    simp [stepFile, extract_tool_info, h, h1, h2]

/-- Claim C7, witness: the statement at tool `bbduk` with empty content. -/
theorem output_iff_info_witness :
    ((stepFile SidecarState.missing nameBbduk (ReadResult.ok [])).1.isSome = true ↔
      (extractDescription [] ≠ [] ∨ extractUsage [] ≠ [])) ∧
    (extractDescription [] = [] → extractUsage [] = [] →
      stepFile SidecarState.missing nameBbduk (ReadResult.ok []) = (none, 0, 1)) :=
  output_iff_info SidecarState.missing nameBbduk [] (by decide)

/-- Claim C8: an unreadable input yields the all-absent result from the
extractor (the total function returns `none`; the bare `except:` lets no
exception propagate), and the driver's loop body skips it, incrementing the
skip counter once, exactly as it does for a readable file with empty
description and usage. -/
theorem unreadable_skip (fs : SidecarState) (tn : List Char) (h : excludedB tn = false) :
    extract_tool_info ReadResult.err = none ∧
    stepFile fs tn ReadResult.err = (none, 0, 1) ∧
    ∀ content, extractDescription content = [] → extractUsage content = [] →
      stepFile fs tn (ReadResult.ok content) = stepFile fs tn ReadResult.err := by
  refine ⟨rfl, by simp [stepFile, extract_tool_info, h], ?_⟩
  intro content h1 h2
  simp [stepFile, extract_tool_info, h, h1, h2]

/-- Claim C8, witness: the statement at tool `bbduk`, with the readable
no-information file instantiated to empty content. -/
theorem unreadable_skip_witness :
    extract_tool_info ReadResult.err = none ∧
    stepFile SidecarState.missing nameBbduk ReadResult.err = (none, 0, 1) ∧
    stepFile SidecarState.missing nameBbduk (ReadResult.ok []) =
      stepFile SidecarState.missing nameBbduk ReadResult.err := by
  obtain ⟨h1, h2, h3⟩ := unreadable_skip SidecarState.missing nameBbduk (by decide)
  exact ⟨h1, h2, h3 [] rfl rfl⟩

/-- Claim C9: when the version sidecar is missing, malformed, or lacks a
`version` field, rendering succeeds and the output contains the default
version literal `BBTools v39.34`; when a `version` field is present its
value is interpolated instead. -/
theorem version_fallback (fs : SidecarState) (tn d u lm : List Char) :
    (badSidecar fs →
      occursB (litVersionTag ++ litDefaultVersion) (generate_tool_page fs tn d u lm) = true) ∧
    (∀ fields v, fs = SidecarState.parsed fields →
      lookupField litVersionKey fields = some v →
      occursB (litVersionTag ++ v) (generate_tool_page fs tn d u lm) = true) := by
  constructor
  · intro hb
    have hv : resolveVersion fs = litDefaultVersion := by
      cases fs with
      | missing => rfl
      | malformed => rfl
      | parsed fields =>
        simp only [badSidecar] at hb
        simp [resolveVersion, hb]
    simp only [generate_tool_page]
    rw [hv]
    exact occursB_version tn d u lm litDefaultVersion
  · intro fields v hf hl
    subst hf
    have hv : resolveVersion (SidecarState.parsed fields) = v := by
      simp [resolveVersion, hl]
    simp only [generate_tool_page]
    rw [hv]
    exact occursB_version tn d u lm v

/-- Claim C9, witness: the fallback at a missing sidecar and the sidecar
value `40.00` at a well-formed sidecar. -/
theorem version_fallback_witness :
    occursB (litVersionTag ++ litDefaultVersion)
      (generate_tool_page SidecarState.missing nameBbduk [] [] []) = true ∧
    occursB (litVersionTag ++ litVersion40)
      (generate_tool_page (SidecarState.parsed [(litVersionKey, litVersion40)])
        nameBbduk [] [] []) = true := by
  constructor
  · exact (version_fallback SidecarState.missing nameBbduk [] [] []).1 trivial
  · exact (version_fallback (SidecarState.parsed [(litVersionKey, litVersion40)])
      nameBbduk [] [] []).2 [(litVersionKey, litVersion40)] litVersion40 rfl (by decide)

/-- Claim C10: each extraction regex requires its terminator lookahead: when
a `Description:` label has no terminator (`\n\nUsage:`, `Parameters:` or
`Usage:`) anywhere after it, the extracted description is empty despite the
label; likewise, when the text after a `Usage:` label reaches end of file
with none of `\n\n`, `\nParameters:`, `\nInput` after the label, the
extracted usage is empty. -/
theorem terminator_required (content : List Char) :
    (∀ s, occIdx descLabel content = some s →
      findTerm descTerm (content.drop (s + descLabel.length)) = none →
      extractDescription content = []) ∧
    (∀ s, occIdx usageLabel content = some s →
      findTerm usageTerm (content.drop (s + usageLabel.length)) = none →
      extractUsage content = []) := by
  constructor
  · intro s hs hn
    simp only [extractDescription, reSearchLazy, hs]
    rw [backtrackWS_none hn]
  · intro s hs hn
    simp only [extractUsage, reSearchLazy, hs]
    rw [backtrackWS_none hn]

/-- Claim C10, witness: `Description: abc` yields an empty description and
`Usage: run it now` yields an empty usage, the labels notwithstanding. -/
theorem terminator_required_witness :
    extractDescription cNoTermD = [] ∧ extractUsage cNoTermU = [] :=
  ⟨(terminator_required cNoTermD).1 0 (by decide) (by decide),
   (terminator_required cNoTermU).2 0 (by decide) (by decide)⟩
